import Mathlib

/-!
Shallow embedding of `test_fixed/main.py`, a test harness that parses two
parallel text files into test records, runs a fixed external executable on
each record's arguments, compares the stripped stdout with the expected
answer, tallies the results per test type and prints a report.

The external executable is modelled as an oracle `List String → String`
mapping the full argument vector of the process to the text it writes to
stdout.  Code paths that raise a Python exception (`IndexError` on
`tests[0]` or `data[2]`) are modelled with `Option`, `none` being a crash.
`exit(1)` is modelled by the `aborted` outcome carrying the exit code.
-/

namespace CaTools

/-- `EXECUTABLE_NAME = "./a.out"` from the top of the script. -/
def EXECUTABLE_NAME : String := "./a.out"

/-- The set of characters removed by Python's `str.strip()` (ASCII range). -/
def isPySpace (c : Char) : Bool :=
  c == ' ' || c == '\t' || c == '\n' || c == '\r' || c == '\x0b' || c == '\x0c'

/-- `str.strip()` on the underlying character list: drop whitespace from the
left, then from the right. -/
def stripChars (l : List Char) : List Char :=
  ((l.dropWhile isPySpace).reverse.dropWhile isPySpace).reverse

/-- Python's `str.strip()`. -/
def pyStrip (s : String) : String := ⟨stripChars s.data⟩

/-- The `TestType` enum, in its Python definition order. -/
inductive TestType where
  | PRINT
  | ADD
  | SUB
  | MUL
  | DIV
deriving DecidableEq, Repr

/-- `TestType.from_str`: the `match` over the third field of a test line. -/
def TestType.from_str (x : String) : TestType :=
  if x = "+" ∨ x = "a" then .ADD
  else if x = "-" ∨ x = "s" then .SUB
  else if x = "*" ∨ x = "m" then .MUL
  else if x = "/" ∨ x = "d" then .DIV
  else .PRINT

/-- A test record: `TestPrint` (whose `type` field is always `PRINT`) or
`TestOperation` with an explicit type.  Fields: 1-based index `i`, argument
list `args`, expected answer `ans`. -/
inductive Test where
  | print (i : Nat) (args : List String) (ans : String)
  | operation (i : Nat) (args : List String) (ans : String) (ty : TestType)
deriving DecidableEq, Repr

/-- The `i` field shared by `TestPrint` and `TestOperation`. -/
def Test.i : Test → Nat
  | .print i _ _ => i
  | .operation i _ _ _ => i

/-- The `args` field shared by `TestPrint` and `TestOperation`. -/
def Test.args : Test → List String
  | .print _ a _ => a
  | .operation _ a _ _ => a

/-- The `ans` field shared by `TestPrint` and `TestOperation`. -/
def Test.ans : Test → String
  | .print _ _ a => a
  | .operation _ _ a _ => a

/-- The `type` field: `TestPrint` always carries `PRINT`. -/
def Test.type : Test → TestType
  | .print _ _ _ => .PRINT
  | .operation _ _ _ ty => ty

/-- `test_from_arg(i, data, ans)`: a line with exactly three fields becomes a
`TestPrint`; otherwise `data[2]` selects the operation (an `IndexError` on a
line with fewer than three fields is `none`). -/
def test_from_arg (i : Nat) (data : List String) (ans : String) : Option Test :=
  if data.length = 3 then
    some (.print (i + 1) data ans)
  else
    match data.get? 2 with
    | some s => some (.operation (i + 1) data ans (TestType.from_str s))
    | none => none

/-- `run_test`: spawn `[EXECUTABLE_NAME, *test.args]`, strip its stdout and
compare with the expected answer.  Returns the pass flag and the captured
(stripped) output. -/
def run_test (oracle : List String → String) (t : Test) : Bool × String :=
  let data := pyStrip (oracle (EXECUTABLE_NAME :: t.args))
  (data == t.ans, data)

/-- The argument vectors of the processes spawned by one call to `run_test`:
a single `Popen([EXECUTABLE_NAME, *test.args], ...)`. -/
def run_test_calls (t : Test) : List (List String) :=
  [EXECUTABLE_NAME :: t.args]

/-- How a call to `run_tests` ends: normal return of `(good, bad)`, or the
`single_fail` abort which copies the failing invocation to the clipboard and
exits the process with the given status code. -/
inductive RunOutcome where
  | completed (good : Nat) (bad : List Test)
  | aborted (clip : String) (code : Nat)
deriving DecidableEq, Repr

/-- The loop body of `run_tests`: walks the remaining tests carrying the
accumulators `good` and `bad`, returning the list of tests actually executed
together with the outcome. -/
def runTestsGo (oracle : List String → String) (single_fail : Bool) :
    List Test → Nat → List Test → List Test × RunOutcome
  | [], good, bad => ([], .completed good bad)
  | t :: rest, good, bad =>
    let r := run_test oracle t
    if r.1 then
      let next := runTestsGo oracle single_fail rest (good + 1) bad
      (t :: next.1, next.2)
    else if single_fail then
      ([t], .aborted (EXECUTABLE_NAME ++ " " ++ String.intercalate " " t.args) 1)
    else
      let next := runTestsGo oracle single_fail rest good (bad ++ [t])
      (t :: next.1, next.2)

/-- `run_tests`: reads `tests[0].type` before the loop, so an empty list is an
`IndexError` (`none`); otherwise runs the loop with both accumulators empty.
The `quiet` flag only affects printing and is omitted. -/
def run_tests (oracle : List String → String) (single_fail : Bool)
    (tests : List Test) : Option (List Test × RunOutcome) :=
  match tests with
  | [] => none
  | _ :: _ => some (runTestsGo oracle single_fail tests 0 [])

/-- Python's `str.split(sep)` for a single-character separator, on the
underlying character list: empty pieces are kept, and the empty string
yields one empty piece. -/
def splitOnChar (sep : Char) : List Char → List (List Char)
  | [] => [[]]
  | c :: rest =>
    match splitOnChar sep rest with
    | [] => [[]]
    | g :: gs => if c = sep then [] :: g :: gs else (c :: g) :: gs

/-- Python's `str.split(sep)` for a single-character separator. -/
def pySplit (sep : Char) (s : String) : List String :=
  (splitOnChar sep s.data).map (fun l => ⟨l⟩)

/-- Parsing of `fp_tests.txt`: strip the file, split into lines, strip each
line and split it on single spaces. -/
def parse_tests_raw (content : String) : List (List String) :=
  (pySplit '\n' (pyStrip content)).map (fun x => pySplit ' ' (pyStrip x))

/-- Parsing of `fp_answers.txt`: strip the file, split into lines, strip each
line. -/
def parse_answers (content : String) : List String :=
  (pySplit '\n' (pyStrip content)).map pyStrip

/-- The list comprehension `[test_from_arg(i, *tup) for i, tup in
enumerate(zip(tests_raw, answers))]`, which crashes as soon as one
`test_from_arg` raises. -/
def buildTests : Nat → List (List String × String) → Option (List Test)
  | _, [] => some []
  | i, (data, ans) :: rest =>
    match test_from_arg i data ans, buildTests (i + 1) rest with
    | some t, some ts => some (t :: ts)
    | _, _ => none

/-- `tests_unsorted` from `main`: zip the parsed test lines with the parsed
answer lines and build the records. -/
def tests_unsorted (testsContent answersContent : String) : Option (List Test) :=
  buildTests 0 ((parse_tests_raw testsContent).zip (parse_answers answersContent))

/-- The per-type grouping `tests = {t: [...filter(lambda x: x.type == t, ...)]}`. -/
def testsByType (records : List Test) (ty : TestType) : List Test :=
  records.filter (fun t => t.type == ty)

/-- The iteration order of `for test_type in TestType`. -/
def allTypes : List TestType := [.PRINT, .ADD, .SUB, .MUL, .DIV]

/-- The per-type report line `failed_percent = len(result[1]) /
len(tests[result_type]) * 100`, in exact rational arithmetic. -/
def perTypeFailedPercent (bad : List Test) (testsOfType : List Test) : ℚ :=
  (bad.length : ℚ) / (testsOfType.length : ℚ) * 100

/-- The total report line `failed_percent = failed / (successful + failed) *
100`, in exact rational arithmetic. -/
def totalFailedPercent (successful failed : Nat) : ℚ :=
  (failed : ℚ) / ((successful : ℚ) + (failed : ℚ)) * 100

/-- `successful = sum([results[x][0] for x in results])`. -/
def totalSuccessful (results : List (TestType × (Nat × List Test))) : Nat :=
  (results.map (fun r => r.2.1)).sum

/-- `failed = sum([len(results[x][1]) for x in results])`. -/
def totalFailed (results : List (TestType × (Nat × List Test))) : Nat :=
  (results.map (fun r => r.2.2.length)).sum

/-! ### Concrete fixtures

A small oracle and a handful of records used to exercise the theorems on
closed inputs. -/

/-- An oracle that answers `3\n` to the invocation `./a.out 1 2 +` and `999`
to everything else. -/
def sampleOracle : List String → String :=
  fun argv => if argv = ["./a.out", "1", "2", "+"] then "3\n" else "999"

/-- An oracle that prints `3` regardless of its arguments. -/
def constOracle : List String → String := fun _ => "3"

/-- A printing test record. -/
def samplePrint : Test := .print 1 ["1", "2", "3"] "one two three"

/-- An addition test record. -/
def sampleAdd : Test := .operation 2 ["1", "2", "+"] "3" .ADD

/-- A subtraction test record. -/
def sampleSub : Test := .operation 3 ["5", "2", "-"] "3" .SUB

/-- A multiplication test record. -/
def sampleMul : Test := .operation 4 ["2", "3", "*"] "6" .MUL

/-- A division test record. -/
def sampleDiv : Test := .operation 5 ["6", "2", "/"] "3" .DIV

/-- One record of each test type. -/
def sampleRecords : List Test :=
  [samplePrint, sampleAdd, sampleSub, sampleMul, sampleDiv]

/-- The per-type pass counts of `sampleRecords` under `constOracle`. -/
def sampleG : TestType → Nat
  | .PRINT => 0
  | .ADD => 1
  | .SUB => 1
  | .MUL => 0
  | .DIV => 1

/-- The per-type failing tests of `sampleRecords` under `constOracle`. -/
def sampleB : TestType → List Test
  | .PRINT => [samplePrint]
  | .MUL => [sampleMul]
  | _ => []

/-- The per-type executed tests of `sampleRecords` under `constOracle`. -/
def sampleEx : TestType → List Test := fun ty => testsByType sampleRecords ty

/-- A two-line tests file. -/
def sampleTestsTxt : String := "1 2 3\n4 5 6 +"

/-- A three-line answers file (one line more than `sampleTestsTxt`). -/
def sampleAnswersTxt : String := "a\nb\nc"

/-- The records parsed from the two sample files. -/
def sampleParsed : List Test :=
  [.print 1 ["1", "2", "3"] "a", .operation 2 ["4", "5", "6", "+"] "b" .PRINT]

/-! ### Helper lemmas -/

/-- If the left part of an append is dropped entirely, `dropWhile` continues
into the right part. -/
lemma dropWhile_append_left (p : Char → Bool) (m : List Char) :
    ∀ l : List Char, l.dropWhile p = [] → (l ++ m).dropWhile p = m.dropWhile p := by
  intro l
  induction l with
  | nil => intro _; rfl
  | cons a as ih =>
    intro h
    by_cases ha : p a = true
    · have h2 : as.dropWhile p = [] := by simpa [List.dropWhile_cons, ha] using h
      simpa [List.dropWhile_cons, ha] using ih h2
    · simp [List.dropWhile_cons, ha] at h

/-- If `dropWhile` leaves something of the left part of an append, the right
part is appended untouched. -/
lemma dropWhile_append_right (p : Char → Bool) (m : List Char) :
    ∀ (l : List Char) (c : Char) (cs : List Char), l.dropWhile p = c :: cs →
    (l ++ m).dropWhile p = c :: (cs ++ m) := by
  intro l
  induction l with
  | nil => intro c cs h; simp at h
  | cons a as ih =>
    intro c cs h
    by_cases ha : p a = true
    · rw [List.dropWhile_cons, if_pos ha] at h
      simpa [List.dropWhile_cons, ha] using ih c cs h
    · rw [List.dropWhile_cons, if_neg ha] at h
      injection h with h1 h2
      subst h1; subst h2
      simp [List.dropWhile_cons, ha]

/-- Appending a trailing newline does not change the result of stripping. -/
lemma stripChars_append_newline (l : List Char) :
    stripChars (l ++ ['\n']) = stripChars l := by
  unfold stripChars
  cases hd : l.dropWhile isPySpace with
  | nil =>
    rw [dropWhile_append_left isPySpace ['\n'] l hd]
    rfl
  | cons c cs =>
    rw [dropWhile_append_right isPySpace ['\n'] l c cs hd]
    have hrev : (c :: (cs ++ ['\n'])).reverse = '\n' :: (c :: cs).reverse := by
      simp
    have hsp : isPySpace '\n' = true := by decide
    rw [hrev, List.dropWhile_cons, if_pos hsp]

/-- Appending a trailing newline does not change the result of `str.strip()`. -/
lemma pyStrip_append_newline (s : String) :
    pyStrip (s ++ "\n") = pyStrip s := by
  have hdata : (s ++ "\n").data = s.data ++ ['\n'] := by
    rw [String.data_append]
  unfold pyStrip
  rw [hdata, stripChars_append_newline]

/-- Characterisation of the loop of `run_tests` when it runs to completion:
the final `good` extends the accumulator by the number of passing tests, the
final `bad` extends the accumulator by the failing tests in order, and every
test of the list was executed. -/
lemma runTestsGo_completed (oracle : List String → String) (sf : Bool) :
    ∀ (l : List Test) (good : Nat) (bad ex : List Test) (g : Nat) (b : List Test),
    runTestsGo oracle sf l good bad = (ex, RunOutcome.completed g b) →
    g = good + l.countP (fun t => (run_test oracle t).1) ∧
      b = bad ++ l.filter (fun t => !(run_test oracle t).1) ∧ ex = l := by
  intro l
  induction l with
  | nil =>
    intro good bad ex g b h
    simp only [runTestsGo, Prod.mk.injEq, RunOutcome.completed.injEq] at h
    obtain ⟨hex, hg, hb⟩ := h
    simp [← hex, ← hg, ← hb]
  | cons t rest ih =>
    intro good bad ex g b h
    simp only [runTestsGo] at h
    by_cases hp : (run_test oracle t).1 = true
    · rw [if_pos hp] at h
      cases hnext : runTestsGo oracle sf rest (good + 1) bad with
      | mk ex1 out1 =>
        rw [hnext] at h
        injection h with hex hout
        subst hout
        obtain ⟨ihg, ihb, ihex⟩ := ih (good + 1) bad ex1 g b hnext
        refine ⟨?_, ?_, ?_⟩
        · simp only [List.countP_cons, hp]
          simp
          omega
        · rw [List.filter_cons, ihb]
          simp [hp]
        · rw [← hex, ihex]
    · rw [if_neg hp] at h
      have hp2 : (run_test oracle t).1 = false := by
        simpa using hp
      by_cases hsf : sf = true
      · rw [if_pos hsf] at h
        simp at h
      · rw [if_neg hsf] at h
        cases hnext : runTestsGo oracle sf rest good (bad ++ [t]) with
        | mk ex1 out1 =>
          rw [hnext] at h
          injection h with hex hout
          subst hout
          obtain ⟨ihg, ihb, ihex⟩ := ih good (bad ++ [t]) ex1 g b hnext
          refine ⟨?_, ?_, ?_⟩
          · simp only [List.countP_cons, hp2]
            simp
            omega
          · rw [List.filter_cons, ihb]
            simp [hp2]
          · rw [← hex, ihex]

/-- A list's length splits as the count of a predicate plus the count of its
negation. -/
lemma countP_add_countP_not (p : Test → Bool) (l : List Test) :
    l.countP p + l.countP (fun t => !p t) = l.length := by
  induction l with
  | nil => rfl
  | cons t rest ih =>
    by_cases hp : p t = true
    · simp only [List.countP_cons, hp]
      simp
      omega
    · have hp2 : p t = false := by simpa using hp
      simp only [List.countP_cons, hp2]
      simp
      omega

/-- When `run_tests` completes, `good + len(bad)` equals the number of tests. -/
lemma run_tests_completed_length (oracle : List String → String) (sf : Bool)
    (tests ex : List Test) (g : Nat) (b : List Test)
    (h : run_tests oracle sf tests = some (ex, RunOutcome.completed g b)) :
    g + b.length = tests.length := by
  cases tests with
  | nil => simp [run_tests] at h
  | cons t rest =>
    simp only [run_tests, Option.some.injEq] at h
    obtain ⟨hg, hb, _⟩ := runTestsGo_completed oracle sf (t :: rest) 0 [] ex g b h
    rw [hg, hb]
    simp only [Nat.zero_add, List.nil_append]
    rw [← List.countP_eq_length_filter]
    exact countP_add_countP_not _ _

/-- Characterisation of the loop of `run_tests` under `single_fail` when the
list splits into passing tests followed by a failing one: the loop stops at
the failing test, copies the invocation to the clipboard and exits with
status 1. -/
lemma runTestsGo_first_fail (oracle : List String → String) (t : Test)
    (post : List Test) (ht : (run_test oracle t).1 = false) :
    ∀ (pre : List Test) (good : Nat) (bad : List Test),
    (∀ p ∈ pre, (run_test oracle p).1 = true) →
    runTestsGo oracle true (pre ++ t :: post) good bad =
      (pre ++ [t],
        RunOutcome.aborted (EXECUTABLE_NAME ++ " " ++ String.intercalate " " t.args) 1) := by
  intro pre
  induction pre with
  | nil =>
    intro good bad _
    simp [runTestsGo, ht]
  | cons p ps ih =>
    intro good bad hpre
    have hp : (run_test oracle p).1 = true := hpre p (by simp)
    have hps : ∀ q ∈ ps, (run_test oracle q).1 = true :=
      fun q hq => hpre q (by simp [hq])
    simp only [List.cons_append, runTestsGo, hp, if_pos, List.append_eq]
    rw [ih (good + 1) bad hps]

/-- Characterisation of the record-building comprehension: on success it
produces one record per zipped line pair, each built by `test_from_arg` at
its index. -/
lemma buildTests_spec :
    ∀ (l : List (List String × String)) (i0 : Nat) (records : List Test),
    buildTests i0 l = some records →
    records.length = l.length ∧
    ∀ (j : Nat) (hj : j < l.length) (hj2 : j < records.length),
      test_from_arg (i0 + j) (l.get ⟨j, hj⟩).1 (l.get ⟨j, hj⟩).2 =
        some (records.get ⟨j, hj2⟩) := by
  intro l
  induction l with
  | nil =>
    intro i0 records h
    simp only [buildTests, Option.some.injEq] at h
    refine ⟨by simp [← h], ?_⟩
    intro j hj
    exact absurd hj (by simp)
  | cons da rest ih =>
    intro i0 records h
    obtain ⟨data, ans⟩ := da
    simp only [buildTests] at h
    cases h1 : test_from_arg i0 data ans with
    | none => rw [h1] at h; simp at h
    | some t =>
      cases h2 : buildTests (i0 + 1) rest with
      | none => rw [h1, h2] at h; simp at h
      | some ts =>
        rw [h1, h2] at h
        simp only [Option.some.injEq] at h
        obtain ⟨hlen, hget⟩ := ih (i0 + 1) ts h2
        subst h
        constructor
        · simp [hlen]
        · intro j hj hj2
          cases j with
          | zero => simpa using h1
          | succ k =>
            have hk : k < rest.length := by simpa using hj
            have hk2 : k < ts.length := by rw [hlen]; exact hk
            have hidx : i0 + (k + 1) = (i0 + 1) + k := by omega
            rw [hidx]
            simpa using hget k hk hk2

/-- `test_from_arg` always assigns the 1-based index `i + 1`. -/
lemma test_from_arg_index (i : Nat) (data : List String) (ans : String)
    (t : Test) (h : test_from_arg i data ans = some t) : t.i = i + 1 := by
  unfold test_from_arg at h
  by_cases hlen : data.length = 3
  · rw [if_pos hlen] at h
    simp only [Option.some.injEq] at h
    rw [← h]
    rfl
  · rw [if_neg hlen] at h
    cases hget : data.get? 2 with
    | none => rw [hget] at h; simp at h
    | some s =>
      rw [hget] at h
      simp only [Option.some.injEq] at h
      rw [← h]
      rfl

/-- Membership in a per-type group is membership in the record list together
with having that type. -/
lemma mem_testsByType (records : List Test) (ty : TestType) (u : Test) :
    u ∈ testsByType records ty ↔ u ∈ records ∧ u.type = ty := by
  simp [testsByType, List.mem_filter]

/-- The per-type groups cover every record exactly once: their sizes sum to
the number of records. -/
lemma sum_testsByType_length (records : List Test) :
    (allTypes.map (fun ty => (testsByType records ty).length)).sum = records.length := by
  induction records with
  | nil => rfl
  | cons t l ih =>
    cases htype : t.type <;>
      simp only [allTypes, testsByType, List.map_cons, List.map_nil,
        List.sum_cons, List.sum_nil, List.filter_cons, htype] at ih ⊢ <;>
      simp at ih ⊢ <;>
      omega

/-- Classification performed by `test_from_arg`: exactly three fields give a
printing test, otherwise the third field selects the type. -/
lemma test_from_arg_type (i : Nat) (data : List String) (ans : String) (t : Test)
    (h : test_from_arg i data ans = some t) :
    (data.length = 3 → t.type = TestType.PRINT) ∧
    (data.length ≠ 3 →
      ∃ h2 : 2 < data.length, t.type = TestType.from_str (data.get ⟨2, h2⟩)) := by
  unfold test_from_arg at h
  by_cases hlen : data.length = 3
  · rw [if_pos hlen] at h
    simp only [Option.some.injEq] at h
    exact ⟨fun _ => by rw [← h]; rfl, fun hne => absurd hlen hne⟩
  · rw [if_neg hlen] at h
    cases hget : data.get? 2 with
    | none => rw [hget] at h; simp at h
    | some s =>
      rw [hget] at h
      simp only [Option.some.injEq] at h
      obtain ⟨h2, hs⟩ := List.get?_eq_some.mp hget
      refine ⟨fun hc => absurd hc hlen, fun _ => ⟨h2, ?_⟩⟩
      rw [← h, hs]
      rfl

/-- A string other than the eight operation selectors maps to `PRINT`. -/
lemma from_str_default (s : String)
    (hs : s ≠ "+" ∧ s ≠ "a" ∧ s ≠ "-" ∧ s ≠ "s" ∧ s ≠ "*" ∧ s ≠ "m" ∧
      s ≠ "/" ∧ s ≠ "d") :
    TestType.from_str s = TestType.PRINT := by
  obtain ⟨h1, h2, h3, h4, h5, h6, h7, h8⟩ := hs
  simp [TestType.from_str, h1, h2, h3, h4, h5, h6, h7, h8]

/-! ### Claim theorems -/

/-- Claim C1: `run_test` spawns the fixed executable `EXECUTABLE_NAME`
exactly once, with the record's argument list appended to the executable
name, and the test passes exactly when the string captured from the
process's stdout equals the record's expected answer string. -/
theorem run_test_once (oracle : List String → String) (t : Test) :
    run_test_calls t = [EXECUTABLE_NAME :: t.args] ∧
    (run_test_calls t).length = 1 ∧
    ((run_test oracle t).1 = true ↔
      pyStrip (oracle (EXECUTABLE_NAME :: t.args)) = t.ans) :=
  ⟨rfl, rfl, by simp [run_test]⟩

/-- Claim C2: when `run_tests` returns a pair `(good, bad)`, `good` is the
number of tests whose `run_test` result was a pass, `bad` is exactly the
failing tests in the order they were run, and `good + len(bad)` equals the
number of tests run. -/
theorem run_tests_tally (oracle : List String → String) (sf : Bool)
    (tests ex : List Test) (good : Nat) (bad : List Test)
    (h : run_tests oracle sf tests = some (ex, RunOutcome.completed good bad)) :
    good = tests.countP (fun t => (run_test oracle t).1) ∧
    bad = tests.filter (fun t => !(run_test oracle t).1) ∧
    good + bad.length = tests.length := by
  have hlen := run_tests_completed_length oracle sf tests ex good bad h
  cases tests with
  | nil => simp [run_tests] at h
  | cons t rest =>
    simp only [run_tests, Option.some.injEq] at h
    obtain ⟨hg, hb, _⟩ := runTestsGo_completed oracle sf (t :: rest) 0 [] ex good bad h
    exact ⟨by simpa using hg, by simpa using hb, hlen⟩

/-- Claim C3: the `i`-th test record is built by `test_from_arg` from the
space-split `i`-th line of the tests file paired with the stripped `i`-th
line of the answers file, and carries the 1-based index `i + 1`. -/
theorem parallel_parsing (tc ac : String) (records : List Test)
    (h : tests_unsorted tc ac = some records) (j : Nat)
    (hj : j < records.length) :
    ∃ (hjt : j < (parse_tests_raw tc).length)
      (hja : j < (parse_answers ac).length),
      test_from_arg j ((parse_tests_raw tc).get ⟨j, hjt⟩)
          ((parse_answers ac).get ⟨j, hja⟩) = some (records.get ⟨j, hj⟩) ∧
      (records.get ⟨j, hj⟩).i = j + 1 := by
  have h2 : buildTests 0 ((parse_tests_raw tc).zip (parse_answers ac)) =
      some records := h
  obtain ⟨hlen, hget⟩ := buildTests_spec _ 0 records h2
  have hjz : j < ((parse_tests_raw tc).zip (parse_answers ac)).length := by
    rw [← hlen]; exact hj
  have hjt : j < (parse_tests_raw tc).length := by
    rw [List.length_zip] at hjz; omega
  have hja : j < (parse_answers ac).length := by
    rw [List.length_zip] at hjz; omega
  have hzip := hget j hjz hj
  rw [Nat.zero_add] at hzip
  have hpair : ((parse_tests_raw tc).zip (parse_answers ac)).get ⟨j, hjz⟩ =
      ((parse_tests_raw tc).get ⟨j, hjt⟩, (parse_answers ac).get ⟨j, hja⟩) := by
    simp [List.get_eq_getElem, List.getElem_zip]
  rw [hpair] at hzip
  exact ⟨hjt, hja, hzip, test_from_arg_index _ _ _ _ hzip⟩

/-- Claim C4: under `single_fail`, once the first failing test is reached no
further test is executed: the run stops right after it, the invocation
(executable name followed by the space-joined arguments) is put on the
clipboard and the process exits with status 1. -/
theorem single_fail_aborts (oracle : List String → String)
    (pre post : List Test) (t : Test)
    (hpre : ∀ p ∈ pre, (run_test oracle p).1 = true)
    (ht : (run_test oracle t).1 = false) :
    run_tests oracle true (pre ++ t :: post) =
      some (pre ++ [t],
        RunOutcome.aborted
          (EXECUTABLE_NAME ++ " " ++ String.intercalate " " t.args) 1) := by
  have hgo := runTestsGo_first_fail oracle t post ht pre 0 [] hpre
  cases pre with
  | nil => simpa [run_tests] using hgo
  | cons p ps =>
    simp only [List.cons_append] at hgo ⊢
    simp only [run_tests]
    rw [hgo]

/-- Claim C5: a parsed record with a three-field input line is a printing
test, any other parsed record takes its type from its third field via
`TestType.from_str` (`+`/`a` addition, `-`/`s` subtraction, `*`/`m`
multiplication, `/`/`d` division, anything else printing), and the per-type
groups form a partition of the parsed records. -/
theorem classification_partition (i : Nat) (data : List String) (ans s : String)
    (t : Test) (records : List Test)
    (hparse : test_from_arg i data ans = some t)
    (hs : s ∉ (["+", "a", "-", "s", "*", "m", "/", "d"] : List String)) :
    (data.length = 3 → t.type = TestType.PRINT) ∧
    (data.length ≠ 3 →
      ∃ h2 : 2 < data.length, t.type = TestType.from_str (data.get ⟨2, h2⟩)) ∧
    TestType.from_str "+" = TestType.ADD ∧
    TestType.from_str "a" = TestType.ADD ∧
    TestType.from_str "-" = TestType.SUB ∧
    TestType.from_str "s" = TestType.SUB ∧
    TestType.from_str "*" = TestType.MUL ∧
    TestType.from_str "m" = TestType.MUL ∧
    TestType.from_str "/" = TestType.DIV ∧
    TestType.from_str "d" = TestType.DIV ∧
    TestType.from_str s = TestType.PRINT ∧
    (∀ u, u ∈ records ↔ ∃ ty, u ∈ testsByType records ty) ∧
    (∀ ty1 ty2 u, ty1 ≠ ty2 → u ∈ testsByType records ty1 →
      u ∉ testsByType records ty2) ∧
    (allTypes.map (fun ty => (testsByType records ty).length)).sum =
      records.length := by
  obtain ⟨hc1, hc2⟩ := test_from_arg_type i data ans t hparse
  have hdef : TestType.from_str s = TestType.PRINT := by
    apply from_str_default
    simp only [List.mem_cons, List.not_mem_nil, or_false] at hs
    tauto
  refine ⟨hc1, hc2, by decide, by decide, by decide, by decide, by decide,
    by decide, by decide, by decide, hdef, ?_, ?_,
    sum_testsByType_length records⟩
  · intro u
    constructor
    · intro hu
      exact ⟨u.type, (mem_testsByType records u.type u).mpr ⟨hu, rfl⟩⟩
    · rintro ⟨ty, hty⟩
      exact ((mem_testsByType records ty u).mp hty).1
  · intro ty1 ty2 u hne h1 h2
    have e1 := ((mem_testsByType records ty1 u).mp h1).2
    have e2 := ((mem_testsByType records ty2 u).mp h2).2
    exact hne (e1.symm.trans e2)

/-- Claim C6: the reported failure percentages, read as exact rationals, are
the failed count over the counted total times 100: per type the denominator
is the number of tests of that type (which equals successful plus failed),
and overall it is successful plus failed. -/
theorem percent_formulas (oracle : List String → String) (sf : Bool)
    (testsOfType ex : List Test) (good : Nat) (bad : List Test)
    (successful failed : Nat)
    (h : run_tests oracle sf testsOfType =
      some (ex, RunOutcome.completed good bad)) :
    perTypeFailedPercent bad testsOfType =
      (bad.length : ℚ) / (testsOfType.length : ℚ) * 100 ∧
    testsOfType.length = good + bad.length ∧
    perTypeFailedPercent bad testsOfType =
      (bad.length : ℚ) / ((good : ℚ) + (bad.length : ℚ)) * 100 ∧
    totalFailedPercent successful failed =
      (failed : ℚ) / ((successful : ℚ) + (failed : ℚ)) * 100 := by
  have hlen := run_tests_completed_length oracle sf testsOfType ex good bad h
  refine ⟨rfl, hlen.symm, ?_, rfl⟩
  unfold perTypeFailedPercent
  rw [← hlen]
  push_cast
  ring

/-- Claim C7: over the per-type partition the reported totals are sums: the
total successful count is the sum of the per-type successful counts, the
total failed count is the sum of the per-type failed-list lengths, and
together they add up to the number of records run. -/
theorem report_totals (oracle : List String → String) (sf : Bool)
    (records : List Test) (g : TestType → Nat) (b ex : TestType → List Test)
    (h : ∀ ty ∈ allTypes,
      run_tests oracle sf (testsByType records ty) =
        some (ex ty, RunOutcome.completed (g ty) (b ty))) :
    totalSuccessful (allTypes.map (fun ty => (ty, (g ty, b ty)))) =
      (allTypes.map g).sum ∧
    totalFailed (allTypes.map (fun ty => (ty, (g ty, b ty)))) =
      (allTypes.map (fun ty => (b ty).length)).sum ∧
    totalSuccessful (allTypes.map (fun ty => (ty, (g ty, b ty)))) +
      totalFailed (allTypes.map (fun ty => (ty, (g ty, b ty)))) =
      records.length := by
  have hP := run_tests_completed_length oracle sf _ _ _ _
    (h .PRINT (by simp [allTypes]))
  have hA := run_tests_completed_length oracle sf _ _ _ _
    (h .ADD (by simp [allTypes]))
  have hS := run_tests_completed_length oracle sf _ _ _ _
    (h .SUB (by simp [allTypes]))
  have hM := run_tests_completed_length oracle sf _ _ _ _
    (h .MUL (by simp [allTypes]))
  have hD := run_tests_completed_length oracle sf _ _ _ _
    (h .DIV (by simp [allTypes]))
  have hsum := sum_testsByType_length records
  refine ⟨rfl, rfl, ?_⟩
  simp only [totalSuccessful, totalFailed, allTypes, List.map_cons,
    List.map_nil, List.sum_cons, List.sum_nil] at hsum ⊢
  omega

/-- Claim C8: the pass comparison is made on the whitespace-stripped stdout,
so an output that differs from the expected answer only by surrounding
whitespace (here a trailing newline) still passes. -/
theorem strip_comparison (oracle : List String → String) (t : Test)
    (hans : pyStrip t.ans = t.ans) :
    ((run_test oracle t).1 = true ↔
      pyStrip (oracle (EXECUTABLE_NAME :: t.args)) = t.ans) ∧
    (run_test (fun _ => t.ans ++ "\n") t).1 = true := by
  constructor
  · simp [run_test]
  · simp [run_test, pyStrip_append_newline, hans]

/-- Claim C9: `run_tests` reads `tests[0].type` before its loop, so it
crashes on an empty list; in particular a test type with no records makes
the default all-types run crash instead of reporting zero results. -/
theorem run_tests_empty_crash (oracle : List String → String) (sf : Bool)
    (records : List Test) (ty : TestType)
    (h : testsByType records ty = []) :
    run_tests oracle sf ([] : List Test) = none ∧
    run_tests oracle sf (testsByType records ty) = none := by
  refine ⟨rfl, ?_⟩
  rw [h]
  rfl

/-- Claim C10: parsing zips the two files together, so exactly
`min(n, m)` records are produced from `n` test lines and `m` answer lines,
the surplus lines of the longer file being dropped. -/
theorem parse_truncation (tc ac : String) (records : List Test)
    (h : tests_unsorted tc ac = some records) :
    records.length =
      min (parse_tests_raw tc).length (parse_answers ac).length := by
  have h2 : buildTests 0 ((parse_tests_raw tc).zip (parse_answers ac)) =
      some records := h
  have hlen := (buildTests_spec _ 0 records h2).1
  rw [hlen, List.length_zip]

/-! ### Witnesses -/

/-- Witness for claim C2 on a run of one passing and one failing test. -/
theorem run_tests_tally_witness :
    1 = ([sampleAdd, sampleSub].countP (fun t => (run_test sampleOracle t).1)) ∧
    [sampleSub] =
      [sampleAdd, sampleSub].filter (fun t => !(run_test sampleOracle t).1) ∧
    1 + ([sampleSub] : List Test).length =
      ([sampleAdd, sampleSub] : List Test).length :=
  run_tests_tally sampleOracle false [sampleAdd, sampleSub]
    [sampleAdd, sampleSub] 1 [sampleSub] (by decide)

/-- Witness for claim C3 at the second parsed record of the sample files. -/
theorem parallel_parsing_witness :
    ∃ (hjt : 1 < (parse_tests_raw sampleTestsTxt).length)
      (hja : 1 < (parse_answers sampleAnswersTxt).length),
      test_from_arg 1 ((parse_tests_raw sampleTestsTxt).get ⟨1, hjt⟩)
          ((parse_answers sampleAnswersTxt).get ⟨1, hja⟩) =
        some (sampleParsed.get ⟨1, by decide⟩) ∧
      (sampleParsed.get ⟨1, by decide⟩).i = 1 + 1 :=
  parallel_parsing sampleTestsTxt sampleAnswersTxt sampleParsed (by decide)
    1 (by decide)

/-- Witness for claim C4: with `single_fail` the third test is never run and
the failing invocation is placed on the clipboard with exit status 1. -/
theorem single_fail_aborts_witness :
    run_tests sampleOracle true ([sampleAdd] ++ sampleSub :: [sampleMul]) =
      some ([sampleAdd] ++ [sampleSub],
        RunOutcome.aborted
          (EXECUTABLE_NAME ++ " " ++ String.intercalate " " sampleSub.args) 1) :=
  single_fail_aborts sampleOracle [sampleAdd] [sampleMul] sampleSub
    (by decide) (by decide)

/-- Witness for claim C5 on a four-field line and the sample records. -/
theorem classification_partition_witness :
    ((["4", "5", "+", "6"] : List String).length = 3 →
      (Test.operation 2 ["4", "5", "+", "6"] "b" .ADD).type = TestType.PRINT) ∧
    ((["4", "5", "+", "6"] : List String).length ≠ 3 →
      ∃ h2 : 2 < (["4", "5", "+", "6"] : List String).length,
        (Test.operation 2 ["4", "5", "+", "6"] "b" .ADD).type =
          TestType.from_str ((["4", "5", "+", "6"] : List String).get ⟨2, h2⟩)) ∧
    TestType.from_str "+" = TestType.ADD ∧
    TestType.from_str "a" = TestType.ADD ∧
    TestType.from_str "-" = TestType.SUB ∧
    TestType.from_str "s" = TestType.SUB ∧
    TestType.from_str "*" = TestType.MUL ∧
    TestType.from_str "m" = TestType.MUL ∧
    TestType.from_str "/" = TestType.DIV ∧
    TestType.from_str "d" = TestType.DIV ∧
    TestType.from_str "z" = TestType.PRINT ∧
    (∀ u, u ∈ sampleRecords ↔ ∃ ty, u ∈ testsByType sampleRecords ty) ∧
    (∀ ty1 ty2 u, ty1 ≠ ty2 → u ∈ testsByType sampleRecords ty1 →
      u ∉ testsByType sampleRecords ty2) ∧
    (allTypes.map (fun ty => (testsByType sampleRecords ty).length)).sum =
      sampleRecords.length :=
  classification_partition 1 ["4", "5", "+", "6"] "b" "z"
    (Test.operation 2 ["4", "5", "+", "6"] "b" .ADD) sampleRecords
    (by decide) (by decide)

/-- Witness for claim C6 on the same one-pass one-fail run. -/
theorem percent_formulas_witness :
    perTypeFailedPercent [sampleSub] [sampleAdd, sampleSub] =
      ((([sampleSub] : List Test).length : ℚ) /
        ((([sampleAdd, sampleSub] : List Test).length : ℚ)) * 100) ∧
    ([sampleAdd, sampleSub] : List Test).length =
      1 + ([sampleSub] : List Test).length ∧
    perTypeFailedPercent [sampleSub] [sampleAdd, sampleSub] =
      ((([sampleSub] : List Test).length : ℚ) /
        (((1 : ℕ) : ℚ) + (([sampleSub] : List Test).length : ℚ)) * 100) ∧
    totalFailedPercent 3 2 =
      (((2 : ℕ) : ℚ) / (((3 : ℕ) : ℚ) + ((2 : ℕ) : ℚ)) * 100) :=
  percent_formulas sampleOracle false [sampleAdd, sampleSub]
    [sampleAdd, sampleSub] 1 [sampleSub] 3 2 (by decide)

/-- Witness for claim C7 on one record of each type under `constOracle`. -/
theorem report_totals_witness :
    totalSuccessful (allTypes.map (fun ty => (ty, (sampleG ty, sampleB ty)))) =
      (allTypes.map sampleG).sum ∧
    totalFailed (allTypes.map (fun ty => (ty, (sampleG ty, sampleB ty)))) =
      (allTypes.map (fun ty => (sampleB ty).length)).sum ∧
    totalSuccessful (allTypes.map (fun ty => (ty, (sampleG ty, sampleB ty)))) +
      totalFailed (allTypes.map (fun ty => (ty, (sampleG ty, sampleB ty)))) =
      sampleRecords.length :=
  report_totals constOracle false sampleRecords sampleG sampleB sampleEx
    (by decide)

/-- Witness for claim C8: the oracle output `3\n` passes against the
expected answer `3`. -/
theorem strip_comparison_witness :
    ((run_test sampleOracle sampleAdd).1 = true ↔
      pyStrip (sampleOracle (EXECUTABLE_NAME :: sampleAdd.args)) =
        sampleAdd.ans) ∧
    (run_test (fun _ => sampleAdd.ans ++ "\n") sampleAdd).1 = true :=
  strip_comparison sampleOracle sampleAdd (by decide)

/-- Witness for claim C9: the addition group of a single printing record is
empty and running it crashes. -/
theorem run_tests_empty_crash_witness :
    run_tests sampleOracle false ([] : List Test) = none ∧
    run_tests sampleOracle false (testsByType [samplePrint] TestType.ADD) =
      none :=
  run_tests_empty_crash sampleOracle false [samplePrint] TestType.ADD
    (by decide)

/-- Witness for claim C10: two test lines and three answer lines give
`min 2 3 = 2` records. -/
theorem parse_truncation_witness :
    sampleParsed.length =
      min (parse_tests_raw sampleTestsTxt).length
        (parse_answers sampleAnswersTxt).length :=
  parse_truncation sampleTestsTxt sampleAnswersTxt sampleParsed (by decide)

end CaTools
